import Mathlib

/-!
# dd / dd-server: deployment synchronisation pipeline

A shallow embedding of `src/dd/client.go` (the client driver) and
`src/dd-server/server.go` (the four HTTP handlers), together with the
properties of the pipeline that the specification states.

Conventions of the embedding.

* Byte streams are lists of naturals (`Bytes`); their content is opaque to the
  program apart from hashing and copying.
* The operating system and the external tools are an explicit oracle
  (`ServerIO`, `ClientIO`): every call whose error the source checks can fail
  in the model, and the handlers and `main` are pure functions of the oracle
  and of the state they start from.
* The descriptor store of the server is a map from cleaned relative paths to
  file contents. Directories are not tracked and keys are compared lexically:
  a failure of `os.MkdirAll`, `os.Create` or `os.Open` that stems from the
  directory structure is one of the failures of the oracle, and no property
  below relates the files under two different keys. The function `os.Stat` is modelled with the one
  distinction that `deployHandler` makes, between "does not exist" and any
  other error.
* Library functions that are not part of the repository (`crypto/sha256`,
  `yaml.Unmarshal`, URL query parsing) are parameters, bundled in `Lib`;
  `encoding/hex` and `path/filepath` are written out. The file `server.go`
  uses `sha256` and `hex` without importing them; they are read as the
  packages that `client.go` imports under these names.
* An external command does not touch the descriptor store.
-/

namespace DD

/-! ## Paths: `filepath.Join` and `filepath.Clean` on slash-separated paths -/

/-- Elements of a path between separators: `"a//b"` has elements `a`, the empty
element, and `b`. -/
def splitSep : List Char → List (List Char)
  | [] => [[]]
  | c :: cs =>
    if c = '/' then [] :: splitSep cs
    else
      match splitSep cs with
      | [] => [[c]]
      | e :: es => (c :: e) :: es

/-- One element processed by `filepath.Clean` on a path that is not rooted:
empty and `.` elements are dropped, `..` removes the last real element or is
kept when there is none, any other element is appended. -/
def cleanStep (out : List (List Char)) (e : List Char) : List (List Char) :=
  if e = [] ∨ e = ['.'] then out
  else if e = ['.', '.'] then
    match out.getLast? with
    | none => [e]
    | some l => if l = ['.', '.'] then out ++ [e] else out.dropLast
  else out ++ [e]

/-- Elements joined by the separator. -/
def joinSep : List (List Char) → List Char
  | [] => []
  | [e] => e
  | e :: es => e ++ '/' :: joinSep es

/-- The function `filepath.Clean` for a path that does not start with a
separator; the empty result is written `.`. -/
def cleanRel (p : List Char) : List Char :=
  match (splitSep p).foldl cleanStep [] with
  | [] => ['.']
  | out => joinSep out

/-- The function `filepath.Clean` on Unix: a rooted path is cleaned below the
root, where `..` cannot climb. -/
def Clean (p : String) : String :=
  match p.data with
  | [] => "."
  | c :: rest =>
    if c = '/' then
      String.mk ('/' :: joinSep (((splitSep rest).foldl cleanStep []).filter (fun e => e ≠ ['.', '.'])))
    else String.mk (cleanRel (c :: rest))

/-- The function `filepath.Join`: leading empty elements are skipped, the rest is
joined by the separator and cleaned; no non-empty element gives the empty
string. -/
def Join : List String → String
  | [] => ""
  | e :: es => if e = "" then Join es else Clean (String.mk (joinSep ((e :: es).map String.data)))

/-- The path at which the server keeps the descriptor of a service
(`hashHandler`, `deployHandler`). -/
def storePath (service : String) : String := Join ["deployments", service, "deploy.yml"]

/-! ## Library functions -/

/-- A byte stream. -/
abbrev Bytes := List Nat

/-- The table `hextable` of `encoding/hex`. -/
def hextable : List Char :=
  ['0', '1', '2', '3', '4', '5', '6', '7', '8', '9', 'a', 'b', 'c', 'd', 'e', 'f']

/-- The characters of `hex.EncodeToString`: for each byte `v` the digits
`hextable[v>>4]` and `hextable[v&0x0f]`. -/
def hexChars : Bytes → List Char
  | [] => []
  | v :: rest => hextable.getD (v / 16 % 16) '0' :: hextable.getD (v % 16) '0' :: hexChars rest

/-- The function `hex.EncodeToString`. -/
def EncodeToString (b : Bytes) : String := String.mk (hexChars b)

/-- Functions of libraries outside the repository, taken as parameters:
`sha256` is the digest `hasher.Sum(nil)` of the bytes written to a
`sha256.New()` hasher; `yaml` is `yaml.Unmarshal` into the `services` mapping
(entry name, `image` field; a missing field is the empty string); `query` is
the parsed query string of the URL that the client formats with the service
name (`...?service=%s`, not escaped). -/
structure Lib where
  sha256 : Bytes → Bytes
  yaml : Bytes → Except String (List (String × String))
  query : String → List (String × String)

/-! ## Server: `src/dd-server/server.go` -/

/-- An HTTP response: status code and body. -/
structure Response where
  status : Nat
  body : String
deriving DecidableEq, Repr

/-- The function `http.Error`: the message followed by a newline, with the
given status. -/
def httpError (msg : String) (code : Nat) : Response := ⟨code, msg ++ "\n"⟩

/-- A response written with `w.Write` only: status 200 and the bytes written. -/
def httpOK (body : String) : Response := ⟨200, body⟩

/-- What a handler sees of a request: the query pairs of the URL and the
result of `r.FormFile` for each field name. -/
structure Request where
  query : List (String × String)
  formFile : String → Except String Bytes

/-- The function `url.Values.Get`: the first value of the key, the empty string
when the key is absent. -/
def queryGet (q : List (String × String)) (key : String) : String :=
  match q.lookup key with
  | some v => v
  | none => ""

/-- The files below the working directory of the server, by cleaned relative
path. The key is lexical: directories are not tracked, and two different keys
are taken to be two different files, although a name that leaves the working
directory through `..` and enters it again reaches a file under a second key.
The properties below read a file under the key it was written with. -/
abbrev Store := String → Option Bytes

/-- The store with one file replaced. -/
def Store.write (fs : Store) (path : String) (data : Bytes) : Store :=
  fun q => if q = path then some data else fs q

/-- The outcome of the operating-system and tool calls of one request. A field
that is `none` lets the call succeed. `copyErr` is a failure of `io.Copy` into
the destination file after the given number of bytes were written; `statErr`
is a failure of `os.Stat` other than "does not exist"; `exec` gives the
combined output of an external command and whether it exited without error. -/
structure ServerIO where
  mkdirAllErr : Option String
  createErr : Option String
  copyErr : Option (Nat × String)
  openErr : Option String
  readErr : Option String
  statErr : Option String
  createTemp : Except String String
  exec : List String → String × Bool

/-- The calls a handler makes on the file system and on external commands. -/
inductive Effect
  | mkdirAll (dir : String)
  | create (path : String)
  | openFile (path : String)
  | stat (path : String)
  | createTemp (pattern : String)
  | remove (name : String)
  | exec (argv : List String)
deriving DecidableEq, Repr

/-- The result of handling one request. -/
structure Outcome where
  resp : Response
  store : Store
  effects : List Effect

/-- The error of `os.Stat`, as far as `deployHandler` tells the cases apart. -/
inductive StatErr
  | notExist
  | other (msg : String)
deriving DecidableEq, Repr

/-- The proper ancestors of a path: `a/b/c` has ancestors `a` and `a/b`. -/
def ancestors (path : String) : List String :=
  let es := splitSep path.data
  (List.range (es.length - 1)).map (fun n => String.mk (joinSep (es.take (n + 1))))

/-- The function `os.Stat` on the store: a path below a regular file fails with
"not a directory", which `os.IsNotExist` does not accept; a path that is
otherwise absent fails with "does not exist". -/
def statPath (io : ServerIO) (fs : Store) (path : String) : Option StatErr :=
  match io.statErr with
  | some e => some (.other e)
  | none =>
    if (fs path).isSome then none
    else if (ancestors path).any (fun q => (fs q).isSome) then some (.other "not a directory")
    else some .notExist

/-- The function `os.Open` on the store. -/
def openPath (io : ServerIO) (fs : Store) (path : String) : Except String Bytes :=
  match io.openErr with
  | some e => .error e
  | none =>
    match fs path with
    | some data => .ok data
    | none => .error "no such file or directory"

/-- Handler of `/image`. -/
def imageHandler (io : ServerIO) (fs : Store) (r : Request) : Outcome :=
  let service := queryGet r.query "service"
  if service = "" then ⟨httpError "Missing service parameter" 400, fs, []⟩
  else
    match r.formFile "image" with
    | .error e => ⟨httpError e 400, fs, []⟩
    | .ok _ =>
      match io.createTemp with
      | .error e => ⟨httpError e 500, fs, [.createTemp "image-*.tar"]⟩
      | .ok tmp =>
        match io.copyErr with
        | some (_, e) => ⟨httpError e 500, fs, [.createTemp "image-*.tar", .remove tmp]⟩
        | none =>
          let argv := ["docker", "load", "-i", tmp]
          let out := io.exec argv
          if out.2 = false then
            ⟨httpError out.1 500, fs, [.createTemp "image-*.tar", .exec argv, .remove tmp]⟩
          else
            ⟨httpOK "Image uploaded successfully", fs,
              [.createTemp "image-*.tar", .exec argv, .remove tmp]⟩

/-- Handler of `/deploy-file`. The function `os.Create` truncates the
destination, `io.Copy` then writes the upload into it. -/
def deployFileHandler (io : ServerIO) (fs : Store) (r : Request) : Outcome :=
  let service := queryGet r.query "service"
  if service = "" then ⟨httpError "Missing service parameter" 400, fs, []⟩
  else
    match r.formFile "file" with
    | .error e => ⟨httpError e 400, fs, []⟩
    | .ok file =>
      let dir := Join ["deployments", service]
      match io.mkdirAllErr with
      | some e => ⟨httpError e 500, fs, [.mkdirAll dir]⟩
      | none =>
        let dstPath := Join [dir, "deploy.yml"]
        match io.createErr with
        | some e => ⟨httpError e 500, fs, [.mkdirAll dir, .create dstPath]⟩
        | none =>
          match io.copyErr with
          | some (n, e) =>
            ⟨httpError e 500, fs.write dstPath (file.take n), [.mkdirAll dir, .create dstPath]⟩
          | none =>
            ⟨httpOK "Deployment file uploaded", fs.write dstPath file,
              [.mkdirAll dir, .create dstPath]⟩

/-- Handler of `/hash`. -/
def hashHandler (lib : Lib) (io : ServerIO) (fs : Store) (r : Request) : Outcome :=
  let service := queryGet r.query "service"
  if service = "" then ⟨httpError "Missing service parameter" 400, fs, []⟩
  else
    let path := Join ["deployments", service, "deploy.yml"]
    match openPath io fs path with
    | .error _ => ⟨httpError "File not found" 404, fs, [.openFile path]⟩
    | .ok data =>
      match io.readErr with
      | some e => ⟨httpError e 500, fs, [.openFile path]⟩
      | none => ⟨httpOK (EncodeToString (lib.sha256 data)), fs, [.openFile path]⟩

/-- Handler of `/deploy`. -/
def deployHandler (io : ServerIO) (fs : Store) (r : Request) : Outcome :=
  let service := queryGet r.query "service"
  if service = "" then ⟨httpError "Missing service parameter" 400, fs, []⟩
  else
    let path := Join ["deployments", service, "deploy.yml"]
    if statPath io fs path = some .notExist then
      ⟨httpError "Deployment file not found" 404, fs, [.stat path]⟩
    else
      let argv := ["docker", "stack", "deploy", "-c", path, service]
      let out := io.exec argv
      if out.2 = false then ⟨httpError out.1 500, fs, [.stat path, .exec argv]⟩
      else ⟨httpOK "Deployment successful", fs, [.stat path, .exec argv]⟩

/-! ## Client: `src/dd/client.go` -/

/-- The four endpoints of the server. -/
inductive Endpoint
  | image
  | deployFile
  | hash
  | deploy
deriving DecidableEq, Repr

/-- The outcome of the operating-system, tool and network calls of one client
run. `files` are the readable local files; `rangePick` is where the iteration
over the `services` map starts (Go leaves the order unspecified); `run` is the
error of `cmd.Run()` for an external command; `savedTar` is what `docker save`
writes; `sendErr` is a transport error of the request to an endpoint, which
then does not reach the server; `server` is the oracle of the server while it
handles that request. The client discards the results of `io.Copy` into the
in-memory multipart body and of `io.ReadAll`; the model takes both to be
complete. -/
structure ClientIO where
  files : String → Option Bytes
  rangePick : Nat
  run : List String → Option String
  createTemp : Except String String
  savedTar : Bytes
  openTmpErr : Option String
  hashReadErr : Option String
  sendErr : Endpoint → Option String
  server : Endpoint → ServerIO

/-- The function `parseDeployYAML`: the `image` field of the first entry that
the iteration over `config.Services` yields, and an error only when the
iteration yields no entry. -/
def parseDeployYAML (lib : Lib) (io : ClientIO) (path : String) : Except String String :=
  match io.files path with
  | none => .error "open: no such file or directory"
  | some data =>
    match lib.yaml data with
    | .error e => .error e
    | .ok services =>
      match services.get? (io.rangePick % services.length) with
      | some service => .ok service.2
      | none => .error "no image found in deploy.yml"

/-- The function `dockerBuild`. -/
def dockerBuild (io : ClientIO) (image : String) : Option String :=
  io.run ["docker", "build", "-t", image, "."]

/-- The function `dockerSave`. -/
def dockerSave (io : ClientIO) (image path : String) : Option String :=
  io.run ["docker", "save", "-o", path, image]

/-- A multipart body with one file field, as `r.FormFile` reads it. -/
def formWith (field : String) (data : Bytes) : String → Except String Bytes :=
  fun name => if name = field then .ok data else .error "http: no such file"

/-- A request without a body, as `r.FormFile` reads it. -/
def noForm : String → Except String Bytes :=
  fun _ => .error "request Content-Type isn't multipart/form-data"

/-- The function `uploadImage`, with the content of the file at `path`: the
error it returns, if any, and the store of the server afterwards. -/
def uploadImage (lib : Lib) (io : ClientIO) (content : Bytes) (service : String) (srv : Store) :
    Option String × Store :=
  match io.openTmpErr with
  | some e => (some e, srv)
  | none =>
    match io.sendErr .image with
    | some e => (some e, srv)
    | none =>
      let out := imageHandler (io.server .image) srv ⟨lib.query service, formWith "image" content⟩
      if out.resp.status ≠ 200 then (some "upload failed", out.store) else (none, out.store)

/-- The function `fileHash`: the digest in hexadecimal and the error. -/
def fileHash (lib : Lib) (io : ClientIO) (path : String) : String × Option String :=
  match io.files path with
  | none => ("", some "open: no such file or directory")
  | some data =>
    match io.hashReadErr with
    | some e => ("", some e)
    | none => (EncodeToString (lib.sha256 data), none)

/-- The function `getRemoteHash`: the digest, which is empty on failure, the
error, and the store of the server afterwards. -/
def getRemoteHash (lib : Lib) (io : ClientIO) (service : String) (srv : Store) :
    String × Option String × Store :=
  match io.sendErr .hash with
  | some e => ("", some e, srv)
  | none =>
    let out := hashHandler lib (io.server .hash) srv ⟨lib.query service, noForm⟩
    if out.resp.status ≠ 200 then ("", some "status", out.store)
    else (out.resp.body, none, out.store)

/-- The function `uploadDeployFile`. -/
def uploadDeployFile (lib : Lib) (io : ClientIO) (path service : String) (srv : Store) :
    Option String × Store :=
  match io.files path with
  | none => (some "open: no such file or directory", srv)
  | some data =>
    match io.sendErr .deployFile with
    | some e => (some e, srv)
    | none =>
      let out := deployFileHandler (io.server .deployFile) srv
        ⟨lib.query service, formWith "file" data⟩
      if out.resp.status ≠ 200 then (some "upload failed", out.store) else (none, out.store)

/-- The function `triggerDeploy`. -/
def triggerDeploy (lib : Lib) (io : ClientIO) (service : String) (srv : Store) :
    Option String × Store :=
  match io.sendErr .deploy with
  | some e => (some e, srv)
  | none =>
    let out := deployHandler (io.server .deploy) srv ⟨lib.query service, noForm⟩
    if out.resp.status ≠ 200 then (some "deploy failed", out.store) else (none, out.store)

/-- The calls of `main`, in the order of the source. -/
inductive Step
  | parseDeployYAML
  | dockerBuild
  | createTemp
  | dockerSave
  | uploadImage
  | fileHash
  | getRemoteHash
  | uploadDeployFile
  | triggerDeploy
deriving DecidableEq, Repr

/-- How a run ends: `main` returns, or `log.Fatal` ends the process. -/
inductive Exit
  | done
  | fatal (msg : String)
deriving DecidableEq, Repr

/-- A client run: how it ended, the calls it made with their success, the store
of the server afterwards, and the transient files that are still on the disk
of the client when the process is gone. -/
structure Run where
  exit : Exit
  calls : List (Step × Bool)
  store : Store
  leftover : List String

/-- The calls up to and including a successful `dockerSave`. -/
def savedCalls : List (Step × Bool) :=
  [(.parseDeployYAML, true), (.dockerBuild, true), (.createTemp, true), (.dockerSave, true)]

/-- The function `main` of the client. The call `log.Fatal` ends the process
through `os.Exit`, which does not run deferred calls: the deferred
`os.Remove` of the transient file runs only when `main` returns. -/
def main (lib : Lib) (io : ClientIO) (args : List String) (srv : Store) : Run :=
  match args with
  | _ :: flag :: deployFile :: serviceName :: _ =>
    if flag ≠ "-f" then ⟨.fatal "Usage: dd -f <deploy.yml> <service-name>", [], srv, []⟩
    else
      match parseDeployYAML lib io deployFile with
      | .error e => ⟨.fatal e, [(.parseDeployYAML, false)], srv, []⟩
      | .ok imageName =>
        match dockerBuild io imageName with
        | some e => ⟨.fatal e, [(.parseDeployYAML, true), (.dockerBuild, false)], srv, []⟩
        | none =>
          match io.createTemp with
          | .error e =>
            ⟨.fatal e, [(.parseDeployYAML, true), (.dockerBuild, true), (.createTemp, false)],
              srv, []⟩
          | .ok tmp =>
            match dockerSave io imageName tmp with
            | some e =>
              ⟨.fatal e, [(.parseDeployYAML, true), (.dockerBuild, true), (.createTemp, true),
                (.dockerSave, false)], srv, [tmp]⟩
            | none =>
              match uploadImage lib io io.savedTar serviceName srv with
              | (some e, srv1) => ⟨.fatal e, savedCalls ++ [(.uploadImage, false)], srv1, [tmp]⟩
              | (none, srv1) =>
                match fileHash lib io deployFile with
                | (_, some e) =>
                  ⟨.fatal e, savedCalls ++ [(.uploadImage, true), (.fileHash, false)], srv1, [tmp]⟩
                | (localHash, none) =>
                  match getRemoteHash lib io serviceName srv1 with
                  | (remoteHash, err, srv2) =>
                    let fetched := savedCalls ++
                      [(.uploadImage, true), (.fileHash, true), (.getRemoteHash, err.isNone)]
                    if localHash ≠ remoteHash then
                      match uploadDeployFile lib io deployFile serviceName srv2 with
                      | (some e, srv3) =>
                        ⟨.fatal e, fetched ++ [(.uploadDeployFile, false)], srv3, [tmp]⟩
                      | (none, srv3) =>
                        match triggerDeploy lib io serviceName srv3 with
                        | (some e, srv4) =>
                          ⟨.fatal e, fetched ++ [(.uploadDeployFile, true), (.triggerDeploy, false)],
                            srv4, [tmp]⟩
                        | (none, srv4) =>
                          ⟨.done, fetched ++ [(.uploadDeployFile, true), (.triggerDeploy, true)],
                            srv4, []⟩
                    else
                      match triggerDeploy lib io serviceName srv2 with
                      | (some e, srv4) => ⟨.fatal e, fetched ++ [(.triggerDeploy, false)], srv4, [tmp]⟩
                      | (none, srv4) => ⟨.done, fetched ++ [(.triggerDeploy, true)], srv4, []⟩
  | _ => ⟨.fatal "Usage: dd -f <deploy.yml> <service-name>", [], srv, []⟩

/-- The order of the calls of a run that uploads the descriptor. -/
def fullOrder : List Step :=
  [.parseDeployYAML, .dockerBuild, .createTemp, .dockerSave, .uploadImage, .fileHash,
    .getRemoteHash, .uploadDeployFile, .triggerDeploy]

/-- The order of the calls of a run that skips the upload of the descriptor. -/
def skipOrder : List Step :=
  [.parseDeployYAML, .dockerBuild, .createTemp, .dockerSave, .uploadImage, .fileHash,
    .getRemoteHash, .triggerDeploy]

/-- Every call that is followed by another call has succeeded, unless it is
`getRemoteHash`. -/
def HaltsAtFailure : List (Step × Bool) → Prop
  | [] => True
  | [_] => True
  | c :: d :: rest => (c.2 = true ∨ c.1 = .getRemoteHash) ∧ HaltsAtFailure (d :: rest)

/-- Every call of the server succeeds while it handles a request. -/
def ServerSucceeds (sio : ServerIO) : Prop :=
  sio.mkdirAllErr = none ∧ sio.createErr = none ∧ sio.copyErr = none ∧ sio.openErr = none ∧
  sio.readErr = none ∧ sio.statErr = none ∧ (∃ tmp, sio.createTemp = .ok tmp) ∧
  ∀ argv, (sio.exec argv).2 = true

/-- Every external command, file operation and HTTP transport of a client run
succeeds, on the client and on the server. -/
def AllSucceed (io : ClientIO) : Prop :=
  (∀ argv, io.run argv = none) ∧ (∃ tmp, io.createTemp = .ok tmp) ∧ io.openTmpErr = none ∧
  io.hashReadErr = none ∧ (∀ ep, io.sendErr ep = none) ∧ ∀ ep, ServerSucceeds (io.server ep)

/-! ## Worked instances -/

/-- A server on which every call succeeds. -/
def okServer : ServerIO :=
  { mkdirAllErr := none, createErr := none, copyErr := none, openErr := none, readErr := none,
    statErr := none, createTemp := .ok "/tmp/image-1.tar", exec := fun _ => ("", true) }

/-- A server on which the copy of an upload fails after two bytes. -/
def copyFailsServer : ServerIO :=
  { okServer with copyErr := some (2, "write: no space left on device") }

/-- The empty store. -/
def emptyStore : Store := fun _ => none

/-- A store that holds the descriptor `[1, 2, 3]` for the service `web`. -/
def webStore : Store := emptyStore.write "deployments/web/deploy.yml" [1, 2, 3]

/-- An upload of the descriptor `[4, 5, 6, 7]` for the service `web`. -/
def webUpload : Request := ⟨[("service", "web")], formWith "file" [4, 5, 6, 7]⟩

/-- A store that holds a descriptor for the service `a` only. -/
def aStore : Store := emptyStore.write "deployments/a/deploy.yml" [1]

/-- A deploy or digest request for the name `a/deploy.yml`. -/
def belowFileRequest : Request := ⟨[("service", "a/deploy.yml")], noForm⟩

/-- A library instance for the worked examples: a digest of 32 bytes that
repeats the length of the input, a descriptor with the single service `web`
and the image `myapp:1`, and the query of a service name that needs no
escaping. -/
def demoLib : Lib :=
  { sha256 := fun d => List.replicate 32 (d.length % 256),
    yaml := fun _ => .ok [("web", "myapp:1")],
    query := fun s => [("service", s)] }

/-- A client on which every call succeeds, with one local file. -/
def okClient (path : String) (data : Bytes) : ClientIO :=
  { files := fun q => if q = path then some data else none,
    rangePick := 0,
    run := fun _ => none,
    createTemp := .ok "/tmp/dd-image-1.tar",
    savedTar := [116, 97, 114],
    openTmpErr := none,
    hashReadErr := none,
    sendErr := fun _ => none,
    server := fun _ => okServer }

/-- The command line `dd -f deploy.yml web`. -/
def webArgs : List String := ["dd", "-f", "deploy.yml", "web"]

/-- A library instance whose descriptor has the single service `web` without an
image, as for a descriptor whose entry `web` has a `build` field only. -/
def noImageLib : Lib := { demoLib with yaml := fun _ => .ok [("web", "")] }

/-- A client on which `docker save` fails; every other call succeeds. -/
def saveFailsClient (path : String) (data : Bytes) : ClientIO :=
  { okClient path data with
    run := fun argv => if argv.take 2 = ["docker", "save"] then some "exit status 1" else none }

/-- A real path element: not empty, not `.`, not `..`, free of separators. -/
def RealElem (e : List Char) : Prop := e ≠ [] ∧ e ≠ ['.'] ∧ e ≠ ['.', '.'] ∧ '/' ∉ e

/-- The shape of a cleaned relative path: some `..` elements, then real
elements only. -/
def NormStack (out : List (List Char)) : Prop :=
  ∃ k rs, out = List.replicate k ['.', '.'] ++ rs ∧ ∀ r ∈ rs, RealElem r

/-! ## Lemmas on paths -/

theorem splitSep_ne_nil (p : List Char) : splitSep p ≠ [] := by
  cases p with
  | nil => simp [splitSep]
  | cons c cs =>
    simp only [splitSep]
    split
    · simp
    · split <;> simp

theorem splitSep_no_sep (p : List Char) : ∀ e ∈ splitSep p, '/' ∉ e := by
  induction p with
  | nil => simp [splitSep]
  | cons c cs ih =>
    intro e he
    simp only [splitSep] at he
    split at he
    · rcases List.mem_cons.1 he with h | h
      · simp [h]
      · exact ih e h
    · rename_i hc
      split at he
      · rename_i h0
        exact absurd h0 (splitSep_ne_nil cs)
      · rename_i e0 es h0
        rcases List.mem_cons.1 he with h | h
        · subst h
          have := ih e0 (by simp [h0])
          simp only [List.mem_cons, not_or]
          exact ⟨fun h => hc h.symm, this⟩
        · exact ih e (by simp [h0, h])

theorem splitSep_of_no_sep (e : List Char) (h : '/' ∉ e) : splitSep e = [e] := by
  induction e with
  | nil => rfl
  | cons c cs ih =>
    simp only [List.mem_cons, not_or] at h
    simp only [splitSep, ih h.2]
    rw [if_neg (fun hc => h.1 hc.symm)]

theorem splitSep_append_sep (a b : List Char) :
    splitSep (a ++ '/' :: b) = splitSep a ++ splitSep b := by
  induction a with
  | nil => simp [splitSep]
  | cons c cs ih =>
    rw [List.cons_append]
    by_cases hc : c = '/'
    · simp only [splitSep, if_pos hc, ih, List.cons_append]
    · simp only [splitSep, if_neg hc, ih]
      cases h : splitSep cs with
      | nil => exact absurd h (splitSep_ne_nil cs)
      | cons e es => simp

theorem cleanStep_real (out : List (List Char)) (e : List Char)
    (h1 : e ≠ []) (h2 : e ≠ ['.']) (h3 : e ≠ ['.', '.']) : cleanStep out e = out ++ [e] := by
  simp [cleanStep, h1, h2, h3]

theorem cleanStep_dotdot_replicate (k : Nat) :
    cleanStep (List.replicate k ['.', '.']) ['.', '.'] = List.replicate (k + 1) ['.', '.'] := by
  cases k with
  | zero => simp [cleanStep]
  | succ n =>
    have h : (List.replicate (n + 1) ['.', '.']).getLast? = some ['.', '.'] := by
      rw [List.getLast?_eq_getLast _ (by simp)]
      simp
    simp only [cleanStep, h]
    simp [List.replicate_succ']

theorem cleanStep_norm (out : List (List Char)) (e : List Char)
    (hn : NormStack out) (he : '/' ∉ e) : NormStack (cleanStep out e) := by
  obtain ⟨k, rs, rfl, hrs⟩ := hn
  by_cases h1 : e = [] ∨ e = ['.']
  · simp only [cleanStep, if_pos h1]
    exact ⟨k, rs, rfl, hrs⟩
  · by_cases h3 : e = ['.', '.']
    · subst h3
      rcases List.eq_nil_or_concat rs with h | ⟨rs0, r, h⟩
      · subst h
        rw [List.append_nil, cleanStep_dotdot_replicate]
        exact ⟨k + 1, [], by simp, by simp⟩
      · rw [List.concat_eq_append] at h
        subst h
        have hr : RealElem r := hrs r (by simp)
        have hl : (List.replicate k ['.', '.'] ++ (rs0 ++ [r])).getLast? = some r := by
          rw [← List.append_assoc, List.getLast?_append]
          simp
        have hd : (List.replicate k ['.', '.'] ++ (rs0 ++ [r])).dropLast
            = List.replicate k ['.', '.'] ++ rs0 := by
          rw [← List.append_assoc, List.dropLast_concat]
        have hc : cleanStep (List.replicate k ['.', '.'] ++ (rs0 ++ [r])) ['.', '.']
            = List.replicate k ['.', '.'] ++ rs0 := by
          simp only [cleanStep, hl, hd]
          simp [hr.2.2.1]
        rw [hc]
        refine ⟨k, rs0, by simp, fun x hx => hrs x (by simp [hx])⟩
    · push_neg at h1
      rw [cleanStep_real _ _ h1.1 h1.2 h3]
      refine ⟨k, rs ++ [e], by simp, ?_⟩
      intro x hx
      rcases List.mem_append.1 hx with h | h
      · exact hrs x h
      · simp only [List.mem_singleton] at h
        subst h
        exact ⟨h1.1, h1.2, h3, he⟩

theorem foldl_cleanStep_norm (es : List (List Char)) :
    ∀ acc, NormStack acc → (∀ e ∈ es, '/' ∉ e) → NormStack (es.foldl cleanStep acc) := by
  induction es with
  | nil => intro acc h _; exact h
  | cons e es ih =>
    intro acc h hes
    simp only [List.foldl_cons]
    exact ih _ (cleanStep_norm acc e h (hes e (by simp))) (fun x hx => hes x (by simp [hx]))

theorem foldl_cleanStep_real (rs : List (List Char)) :
    ∀ acc, (∀ r ∈ rs, RealElem r) → rs.foldl cleanStep acc = acc ++ rs := by
  induction rs with
  | nil => intro acc _; simp
  | cons r rs ih =>
    intro acc h
    have hr : RealElem r := h r (by simp)
    simp only [List.foldl_cons]
    rw [cleanStep_real _ _ hr.1 hr.2.1 hr.2.2.1, ih _ (fun x hx => h x (by simp [hx]))]
    simp

theorem foldl_cleanStep_dotdots (k : Nat) :
    ∀ j, (List.replicate k ['.', '.']).foldl cleanStep (List.replicate j ['.', '.'])
      = List.replicate (j + k) ['.', '.'] := by
  induction k with
  | zero => intro j; simp
  | succ n ih =>
    intro j
    simp only [List.replicate_succ, List.foldl_cons]
    rw [cleanStep_dotdot_replicate, ih (j + 1)]
    congr 1
    omega

/-- Cleaning is idempotent on the element level: a cleaned stack is a fixed point. -/
theorem foldl_cleanStep_fixed (out : List (List Char)) (hn : NormStack out) :
    out.foldl cleanStep [] = out := by
  obtain ⟨k, rs, rfl, hrs⟩ := hn
  rw [List.foldl_append]
  have := foldl_cleanStep_dotdots k 0
  simp only [List.replicate_zero, Nat.zero_add] at this
  rw [this, foldl_cleanStep_real rs _ hrs]

theorem splitSep_joinSep (out : List (List Char)) (h : ∀ e ∈ out, '/' ∉ e) (hne : out ≠ []) :
    splitSep (joinSep out) = out := by
  induction out with
  | nil => exact absurd rfl hne
  | cons e es ih =>
    cases es with
    | nil => simpa [joinSep] using splitSep_of_no_sep e (h e (by simp))
    | cons e2 es2 =>
      simp only [joinSep]
      rw [splitSep_append_sep, splitSep_of_no_sep e (h e (by simp)),
        ih (fun x hx => h x (by simp [hx])) (by simp)]
      rfl

theorem normStack_no_sep (out : List (List Char)) (hn : NormStack out) : ∀ e ∈ out, '/' ∉ e := by
  obtain ⟨k, rs, rfl, hrs⟩ := hn
  intro e he
  rcases List.mem_append.1 he with h | h
  · rw [(List.mem_replicate.1 h).2]
    decide
  · exact (hrs e h).2.2.2

theorem normStack_ne_nil (out : List (List Char)) (hn : NormStack out) : ∀ e ∈ out, e ≠ [] := by
  obtain ⟨k, rs, rfl, hrs⟩ := hn
  intro e he
  rcases List.mem_append.1 he with h | h
  · rw [(List.mem_replicate.1 h).2]
    decide
  · exact (hrs e h).1

theorem joinSep_head (out : List (List Char)) (hn : NormStack out) (hne : out ≠ []) :
    ∃ c t, joinSep out = c :: t ∧ c ≠ '/' := by
  cases out with
  | nil => exact absurd rfl hne
  | cons e es =>
    have h1 : e ≠ [] := normStack_ne_nil _ hn e (by simp)
    have h2 : '/' ∉ e := normStack_no_sep _ hn e (by simp)
    cases e with
    | nil => exact absurd rfl h1
    | cons c cs =>
      have hc : c ≠ '/' := fun hc => h2 (by simp [hc])
      cases es with
      | nil => exact ⟨c, cs, rfl, hc⟩
      | cons e2 es2 => exact ⟨c, cs ++ '/' :: joinSep (e2 :: es2), rfl, hc⟩

/-- The cleaned form of a relative path starts with a character that is not the
separator. -/
theorem cleanRel_head (p : List Char) : ∃ c t, cleanRel p = c :: t ∧ c ≠ '/' := by
  have hn : NormStack ((splitSep p).foldl cleanStep []) :=
    foldl_cleanStep_norm _ [] ⟨0, [], rfl, by simp⟩ (splitSep_no_sep p)
  unfold cleanRel
  split
  · exact ⟨'.', [], rfl, by decide⟩
  · rename_i h
    exact joinSep_head _ hn (by simpa using h)

/-- Cleaning `dir/deploy.yml`, where `dir` is already the cleaned form of `p`,
gives the same path as cleaning `p/deploy.yml` in one go. -/
theorem cleanRel_cleanRel_append (p y : List Char) (hy : RealElem y) :
    cleanRel (cleanRel p ++ '/' :: y) = cleanRel (p ++ '/' :: y) := by
  have hn : NormStack ((splitSep p).foldl cleanStep []) :=
    foldl_cleanStep_norm _ [] ⟨0, [], rfl, by simp⟩ (splitSep_no_sep p)
  have hys : splitSep y = [y] := splitSep_of_no_sep y hy.2.2.2
  have hstep : ∀ out, cleanStep out y = out ++ [y] :=
    fun out => cleanStep_real out y hy.1 hy.2.1 hy.2.2.1
  have hR : (splitSep (p ++ '/' :: y)).foldl cleanStep []
      = (splitSep p).foldl cleanStep [] ++ [y] := by
    rw [splitSep_append_sep, hys, List.foldl_append]
    simp [hstep]
  have hL : (splitSep (cleanRel p ++ '/' :: y)).foldl cleanStep []
      = (splitSep p).foldl cleanStep [] ++ [y] := by
    rw [splitSep_append_sep, hys, List.foldl_append]
    simp only [List.foldl_cons, List.foldl_nil, hstep]
    congr 1
    unfold cleanRel
    split
    · rename_i h
      rw [h]
      simp [splitSep, cleanStep]
    · rename_i h
      rw [splitSep_joinSep _ (normStack_no_sep _ hn) (by simpa using h)]
      exact foldl_cleanStep_fixed _ hn
  show (match (splitSep (cleanRel p ++ '/' :: y)).foldl cleanStep [] with
      | [] => ['.'] | out => joinSep out)
    = (match (splitSep (p ++ '/' :: y)).foldl cleanStep [] with
      | [] => ['.'] | out => joinSep out)
  rw [hL, hR]

theorem Clean_of_rel (c : Char) (t : List Char) (hc : c ≠ '/') :
    Clean (String.mk (c :: t)) = String.mk (cleanRel (c :: t)) := by
  simp [Clean, hc]

theorem join_deployments (service : String) :
    Join ["deployments", service]
      = String.mk (cleanRel ("deployments".data ++ '/' :: service.data)) := by
  have h : ("deployments" : String) ≠ "" := by decide
  simp only [Join, if_neg h, List.map, joinSep]
  exact Clean_of_rel 'd' _ (by decide)

theorem storePath_eq (service : String) :
    storePath service
      = String.mk (cleanRel (("deployments".data ++ '/' :: service.data)
          ++ '/' :: "deploy.yml".data)) := by
  have h : ("deployments" : String) ≠ "" := by decide
  simp only [storePath, Join, if_neg h, List.map, joinSep]
  rw [List.append_assoc]
  exact Clean_of_rel 'd' _ (by decide)

/-- The two ways in which the server builds the path of a stored descriptor
agree: `deployFileHandler` joins the directory first and the file name second,
`hashHandler` and `deployHandler` join the three elements at once. -/
theorem join_dir_eq_storePath (service : String) :
    Join [Join ["deployments", service], "deploy.yml"] = storePath service := by
  rw [join_deployments, storePath_eq]
  obtain ⟨c, t, hct, hc⟩ := cleanRel_head ("deployments".data ++ '/' :: service.data)
  have hne : String.mk (cleanRel ("deployments".data ++ '/' :: service.data)) ≠ "" := by
    rw [hct]
    intro h
    have h2 := congrArg String.data h
    exact absurd h2 (by simp)
  simp only [Join, if_neg hne, List.map, joinSep]
  have hy : RealElem "deploy.yml".data := by
    refine ⟨by decide, by decide, by decide, by decide⟩
  rw [← cleanRel_cleanRel_append _ _ hy]
  rw [hct]
  exact Clean_of_rel c _ hc

/-! ## Server handlers: what they leave unchanged -/

theorem imageHandler_store (io : ServerIO) (fs : Store) (r : Request) :
    (imageHandler io fs r).store = fs := by
  unfold imageHandler
  simp only
  repeat' split
  all_goals rfl

theorem hashHandler_store (lib : Lib) (io : ServerIO) (fs : Store) (r : Request) :
    (hashHandler lib io fs r).store = fs := by
  unfold hashHandler
  simp only
  repeat' split
  all_goals rfl

theorem deployHandler_store (io : ServerIO) (fs : Store) (r : Request) :
    (deployHandler io fs r).store = fs := by
  unfold deployHandler
  simp only
  repeat' split
  all_goals rfl

/-- A successful `/deploy-file` request stores the uploaded bytes at the path of
the service. -/
theorem deployFileHandler_ok (io : ServerIO) (fs : Store) (r : Request) (data : Bytes)
    (hform : r.formFile "file" = .ok data)
    (hok : (deployFileHandler io fs r).resp.status = 200) :
    queryGet r.query "service" ≠ "" ∧
    (deployFileHandler io fs r).store
      = fs.write (storePath (queryGet r.query "service")) data := by
  unfold deployFileHandler at hok ⊢
  simp only [hform] at hok ⊢
  by_cases hs : queryGet r.query "service" = ""
  · simp [hs, httpError] at hok
  · refine ⟨hs, ?_⟩
    simp only [if_neg hs] at hok ⊢
    cases h1 : io.mkdirAllErr with
    | some e => simp [h1, httpError] at hok
    | none =>
      cases h2 : io.createErr with
      | some e => simp [h1, h2, httpError] at hok
      | none =>
        cases h3 : io.copyErr with
        | some e => simp [h1, h2, h3, httpError] at hok
        | none => simp only [join_dir_eq_storePath]

theorem hashHandler_of_stored (lib : Lib) (io : ServerIO) (fs : Store) (r : Request)
    (data : Bytes) (hne : queryGet r.query "service" ≠ "")
    (hfs : fs (storePath (queryGet r.query "service")) = some data) :
    ((hashHandler lib io fs r).resp.status = 200 →
      (hashHandler lib io fs r).resp.body = EncodeToString (lib.sha256 data)) ∧
    (io.openErr = none → io.readErr = none →
      (hashHandler lib io fs r).resp = ⟨200, EncodeToString (lib.sha256 data)⟩) := by
  unfold hashHandler
  simp only [if_neg hne, openPath]
  rw [show Join ["deployments", queryGet r.query "service", "deploy.yml"]
    = storePath (queryGet r.query "service") from rfl, hfs]
  cases h1 : io.openErr with
  | some e => simp [httpError]
  | none =>
    cases h2 : io.readErr with
    | some e => simp [httpError]
    | none => simp [httpOK]

/-- C2 (round trip). After `deployFileHandler` has answered 200 to the upload of
`D` for a service, `hashHandler` for the same service answers 200 with exactly
the lowercase hexadecimal SHA-256 of `D` when its own open and read succeed,
and never answers 200 with anything else; this is the string that `fileHash`
computes for a file of content `D`, and the string that `getRemoteHash`
returns whenever it succeeds. -/
theorem digest_round_trip (lib : Lib) (io ioh : ServerIO) (fs : Store) (r rh : Request)
    (D : Bytes)
    (hsame : queryGet rh.query "service" = queryGet r.query "service")
    (hform : r.formFile "file" = .ok D)
    (hok : (deployFileHandler io fs r).resp.status = 200) :
    queryGet r.query "service" ≠ "" ∧
    (ioh.openErr = none → ioh.readErr = none →
      (hashHandler lib ioh (deployFileHandler io fs r).store rh).resp
        = ⟨200, EncodeToString (lib.sha256 D)⟩) ∧
    ((hashHandler lib ioh (deployFileHandler io fs r).store rh).resp.status = 200 →
      (hashHandler lib ioh (deployFileHandler io fs r).store rh).resp.body
        = EncodeToString (lib.sha256 D)) ∧
    (∀ (cio : ClientIO) (path : String), cio.files path = some D → cio.hashReadErr = none →
      fileHash lib cio path = (EncodeToString (lib.sha256 D), none)) ∧
    (∀ (cio : ClientIO) (name : String),
      queryGet (lib.query name) "service" = queryGet r.query "service" →
      (getRemoteHash lib cio name (deployFileHandler io fs r).store).2.1 = none →
      (getRemoteHash lib cio name (deployFileHandler io fs r).store).1
        = EncodeToString (lib.sha256 D)) := by
  obtain ⟨hne, hst⟩ := deployFileHandler_ok io fs r D hform hok
  have hH : ∀ (ioh : ServerIO) (rq : Request),
      queryGet rq.query "service" = queryGet r.query "service" →
      ((hashHandler lib ioh (deployFileHandler io fs r).store rq).resp.status = 200 →
        (hashHandler lib ioh (deployFileHandler io fs r).store rq).resp.body
          = EncodeToString (lib.sha256 D)) ∧
      (ioh.openErr = none → ioh.readErr = none →
        (hashHandler lib ioh (deployFileHandler io fs r).store rq).resp
          = ⟨200, EncodeToString (lib.sha256 D)⟩) := by
    intro ioh rq hq
    apply hashHandler_of_stored
    · rw [hq]; exact hne
    · rw [hst, hq]
      simp [Store.write]
  refine ⟨hne, (hH ioh rh hsame).2, (hH ioh rh hsame).1, ?_, ?_⟩
  · intro cio path h1 h2
    simp [fileHash, h1, h2]
  · intro cio name hq
    have hb := (hH (cio.server .hash) ⟨lib.query name, noForm⟩ hq).1
    unfold getRemoteHash
    cases hsend : cio.sendErr .hash with
    | some e => simp
    | none =>
      simp only
      split
      · simp
      · rename_i h200
        intro _
        exact hb (not_not.1 h200)

/-- C2, at a concrete upload: the descriptor `[1, 2, 3]` for the service `web`. -/
theorem digest_round_trip_witness :
    (deployFileHandler okServer emptyStore
        ⟨[("service", "web")], formWith "file" [1, 2, 3]⟩).resp.status = 200 ∧
    (hashHandler demoLib okServer
        (deployFileHandler okServer emptyStore
          ⟨[("service", "web")], formWith "file" [1, 2, 3]⟩).store
        ⟨[("service", "web")], noForm⟩).resp
      = ⟨200, EncodeToString (demoLib.sha256 [1, 2, 3])⟩ :=
  ⟨by decide,
   (digest_round_trip demoLib okServer okServer emptyStore
      ⟨[("service", "web")], formWith "file" [1, 2, 3]⟩ ⟨[("service", "web")], noForm⟩ [1, 2, 3]
      (by decide) rfl (by decide)).2.1 rfl rfl⟩

/-- C9 (required service identifier). When the `service` query parameter is
absent or empty, each of the four handlers answers 400, makes no call on the
file system or on an external command, and leaves the store as it was, whatever
the body of the request. -/
theorem missing_service_is_bad_request (lib : Lib) (io : ServerIO) (fs : Store) (r : Request)
    (h : r.query.lookup "service" = none ∨ r.query.lookup "service" = some "") :
    ((imageHandler io fs r).resp.status = 400 ∧ (imageHandler io fs r).effects = [] ∧
      (imageHandler io fs r).store = fs) ∧
    ((deployFileHandler io fs r).resp.status = 400 ∧ (deployFileHandler io fs r).effects = [] ∧
      (deployFileHandler io fs r).store = fs) ∧
    ((hashHandler lib io fs r).resp.status = 400 ∧ (hashHandler lib io fs r).effects = [] ∧
      (hashHandler lib io fs r).store = fs) ∧
    ((deployHandler io fs r).resp.status = 400 ∧ (deployHandler io fs r).effects = [] ∧
      (deployHandler io fs r).store = fs) := by
  have hs : queryGet r.query "service" = "" := by
    unfold queryGet
    rcases h with h | h <;> simp [h]
  simp [imageHandler, deployFileHandler, hashHandler, deployHandler, hs, httpError]

/-- C9, at a request without any query parameter that carries an upload. -/
theorem missing_service_is_bad_request_witness :
    ((⟨[], formWith "file" [1, 2, 3]⟩ : Request).query.lookup "service" = none ∨
      (⟨[], formWith "file" [1, 2, 3]⟩ : Request).query.lookup "service" = some "") ∧
    (deployFileHandler okServer emptyStore ⟨[], formWith "file" [1, 2, 3]⟩).resp.status = 400 ∧
    (deployFileHandler okServer emptyStore ⟨[], formWith "file" [1, 2, 3]⟩).effects = [] :=
  ⟨Or.inl rfl,
   (missing_service_is_bad_request demoLib okServer emptyStore
      ⟨[], formWith "file" [1, 2, 3]⟩ (Or.inl rfl)).2.1.1,
   (missing_service_is_bad_request demoLib okServer emptyStore
      ⟨[], formWith "file" [1, 2, 3]⟩ (Or.inl rfl)).2.1.2.1⟩

/-- C3 (path safety), counterexample. The name `../etc` is not rejected: with a
well-formed upload and no failure, `deployFileHandler` answers 200 after
creating the directory `etc` and the file `etc/deploy.yml`, outside
`deployments`, and the store has changed; `hashHandler` and `deployHandler`
open and stat that path. -/
theorem unsafe_name_not_rejected :
    (deployFileHandler okServer emptyStore
        ⟨[("service", "../etc")], formWith "file" [1, 2, 3]⟩).resp.status = 200 ∧
    (deployFileHandler okServer emptyStore
        ⟨[("service", "../etc")], formWith "file" [1, 2, 3]⟩).effects
      = [.mkdirAll "etc", .create "etc/deploy.yml"] ∧
    (deployFileHandler okServer emptyStore
        ⟨[("service", "../etc")], formWith "file" [1, 2, 3]⟩).store "etc/deploy.yml"
      = some [1, 2, 3] ∧
    emptyStore "etc/deploy.yml" = none ∧
    (hashHandler demoLib okServer emptyStore ⟨[("service", "../etc")], noForm⟩).effects
      = [.openFile "etc/deploy.yml"] ∧
    (deployHandler okServer emptyStore ⟨[("service", "../etc")], noForm⟩).effects
      = [.stat "etc/deploy.yml"] := by
  decide

/-- C3 (path safety), as the code has it. No non-empty service name is rejected
on account of its form. For every non-empty name, also one that is `../etc` or
contains a separator or `..`, `hashHandler` opens and `deployHandler` stats
the path `filepath.Join("deployments", name, "deploy.yml")`, and neither
writes to the store; the only calls of `deployFileHandler` on the file system
are `os.MkdirAll` on `filepath.Join("deployments", name)` and `os.Create` on
that path, and with a well-formed upload and no failure of a call it answers
200 after both calls, and the store holds the upload at that path. -/
theorem nonempty_name_reaches_path (lib : Lib) (io : ServerIO) (fs : Store) (r : Request)
    (hne : queryGet r.query "service" ≠ "") :
    ((hashHandler lib io fs r).effects = [.openFile (storePath (queryGet r.query "service"))] ∧
      (hashHandler lib io fs r).store = fs) ∧
    ((deployHandler io fs r).effects.head?
        = some (.stat (storePath (queryGet r.query "service"))) ∧
      (deployHandler io fs r).store = fs) ∧
    (∀ e ∈ (deployFileHandler io fs r).effects,
      e = .mkdirAll (Join ["deployments", queryGet r.query "service"]) ∨
      e = .create (storePath (queryGet r.query "service"))) ∧
    (∀ D, r.formFile "file" = .ok D → io.mkdirAllErr = none → io.createErr = none →
      io.copyErr = none →
      (deployFileHandler io fs r).resp.status = 200 ∧
      (deployFileHandler io fs r).effects
        = [.mkdirAll (Join ["deployments", queryGet r.query "service"]),
           .create (storePath (queryGet r.query "service"))] ∧
      (deployFileHandler io fs r).store (storePath (queryGet r.query "service")) = some D) := by
  refine ⟨⟨?_, hashHandler_store lib io fs r⟩, ⟨?_, deployHandler_store io fs r⟩, ?_, ?_⟩
  · unfold hashHandler
    simp only [if_neg hne]
    repeat' split
    all_goals rfl
  · unfold deployHandler
    simp only [if_neg hne]
    repeat' split
    all_goals rfl
  · unfold deployFileHandler
    simp only [if_neg hne, join_dir_eq_storePath]
    repeat' split
    all_goals simp
  · intro D hform h1 h2 h3
    unfold deployFileHandler
    simp [hne, hform, h1, h2, h3, join_dir_eq_storePath, httpOK, Store.write]

/-- C3, as the code has it, at the name `../etc`. -/
theorem nonempty_name_reaches_path_witness :
    queryGet (⟨[("service", "../etc")], formWith "file" [1, 2, 3]⟩ : Request).query "service" ≠ "" ∧
    (hashHandler demoLib okServer emptyStore
        ⟨[("service", "../etc")], formWith "file" [1, 2, 3]⟩).effects
      = [.openFile (storePath "../etc")] :=
  ⟨by decide,
   (nonempty_name_reaches_path demoLib okServer emptyStore
      ⟨[("service", "../etc")], formWith "file" [1, 2, 3]⟩ (by decide)).1.1⟩

/-- C7 (atomic replacement), counterexample. With `[1, 2, 3]` stored for the
service `web`, an upload of `[4, 5, 6, 7]` whose copy fails after two bytes is
answered with 500 and leaves `[4, 5]` in the store: neither the old nor the new
descriptor. -/
theorem failed_copy_leaves_truncated_descriptor :
    webStore (storePath "web") = some [1, 2, 3] ∧
    webUpload.formFile "file" = .ok [4, 5, 6, 7] ∧
    (deployFileHandler copyFailsServer webStore webUpload).resp.status = 500 ∧
    (deployFileHandler copyFailsServer webStore webUpload).store (storePath "web")
      = some [4, 5] :=
  ⟨by decide, rfl, by decide, by decide⟩

/-- C7 (descriptor replacement), as the code has it. With `D_old` stored for a
non-empty service name and an upload of `D_new`: if the handler answers 200 the
store holds exactly `D_new`; if `MkdirAll` or `os.Create` fails the answer is
500 and the store still holds `D_old`; if the copy fails the answer is 500 and
the store holds the bytes of `D_new` written before the failure, since
`os.Create` has truncated the file in place. -/
theorem descriptor_replaced_in_place (io : ServerIO) (fs : Store) (r : Request)
    (D_old D_new : Bytes)
    (hne : queryGet r.query "service" ≠ "")
    (hold : fs (storePath (queryGet r.query "service")) = some D_old)
    (hform : r.formFile "file" = .ok D_new) :
    ((deployFileHandler io fs r).resp.status = 200 ∧
      (deployFileHandler io fs r).store (storePath (queryGet r.query "service")) = some D_new) ∨
    ((deployFileHandler io fs r).resp.status = 500 ∧
      (io.mkdirAllErr ≠ none ∨ io.createErr ≠ none) ∧
      (deployFileHandler io fs r).store (storePath (queryGet r.query "service")) = some D_old) ∨
    ((deployFileHandler io fs r).resp.status = 500 ∧
      ∃ n e, io.copyErr = some (n, e) ∧
        (deployFileHandler io fs r).store (storePath (queryGet r.query "service"))
          = some (D_new.take n)) := by
  unfold deployFileHandler
  simp only [if_neg hne, hform, join_dir_eq_storePath]
  cases h1 : io.mkdirAllErr with
  | some e => simp [httpError, hold]
  | none =>
    cases h2 : io.createErr with
    | some e => simp [httpError, hold]
    | none =>
      cases h3 : io.copyErr with
      | some ne =>
        obtain ⟨n, e⟩ := ne
        refine Or.inr (Or.inr ⟨rfl, n, e, rfl, ?_⟩)
        simp [Store.write]
      | none => simp [httpOK, Store.write]

/-- C7, as the code has it, at the failing copy of the counterexample. -/
theorem descriptor_replaced_in_place_witness :
    (queryGet webUpload.query "service" ≠ "" ∧
      webStore (storePath (queryGet webUpload.query "service")) = some [1, 2, 3] ∧
      webUpload.formFile "file" = .ok [4, 5, 6, 7]) ∧
    (((deployFileHandler copyFailsServer webStore webUpload).resp.status = 200 ∧
      (deployFileHandler copyFailsServer webStore webUpload).store
        (storePath (queryGet webUpload.query "service")) = some [4, 5, 6, 7]) ∨
    ((deployFileHandler copyFailsServer webStore webUpload).resp.status = 500 ∧
      (copyFailsServer.mkdirAllErr ≠ none ∨ copyFailsServer.createErr ≠ none) ∧
      (deployFileHandler copyFailsServer webStore webUpload).store
        (storePath (queryGet webUpload.query "service")) = some [1, 2, 3]) ∨
    ((deployFileHandler copyFailsServer webStore webUpload).resp.status = 500 ∧
      ∃ n e, copyFailsServer.copyErr = some (n, e) ∧
        (deployFileHandler copyFailsServer webStore webUpload).store
          (storePath (queryGet webUpload.query "service")) = some (List.take n [4, 5, 6, 7]))) :=
  ⟨⟨by decide, by decide, rfl⟩,
   descriptor_replaced_in_place copyFailsServer webStore webUpload [1, 2, 3] [4, 5, 6, 7]
     (by decide) (by decide) rfl⟩

/-- C8 (missing state), at the failing input. A descriptor is stored for the
service `a` and none for the name `a/deploy.yml`. For that name `os.Stat`
fails with "not a directory", which `os.IsNotExist` does not accept, so
`deployHandler` runs `docker stack deploy` and does not answer 404, whatever
the calls return; `hashHandler` answers 404 to the same name. -/
theorem deploy_runs_without_descriptor (io : ServerIO) :
    aStore (storePath "a/deploy.yml") = none ∧
    (deployHandler io aStore belowFileRequest).effects
      = [.stat "deployments/a/deploy.yml/deploy.yml",
         .exec ["docker", "stack", "deploy", "-c", "deployments/a/deploy.yml/deploy.yml",
           "a/deploy.yml"]] ∧
    (deployHandler io aStore belowFileRequest).resp.status ≠ 404 ∧
    (hashHandler demoLib io aStore belowFileRequest).resp.status = 404 := by
  have hq : queryGet belowFileRequest.query "service" = "a/deploy.yml" := by decide
  have hp : Join ["deployments", "a/deploy.yml", "deploy.yml"]
      = "deployments/a/deploy.yml/deploy.yml" := by decide
  have hs : "a/deploy.yml" ≠ "" := by decide
  have hst : statPath io aStore "deployments/a/deploy.yml/deploy.yml" ≠ some .notExist := by
    unfold statPath
    cases io.statErr with
    | some e => simp
    | none => decide
  have hopen : ∃ e, openPath io aStore "deployments/a/deploy.yml/deploy.yml" = .error e := by
    unfold openPath
    cases io.openErr with
    | some e => exact ⟨e, rfl⟩
    | none => exact ⟨_, rfl⟩
  obtain ⟨e, he⟩ := hopen
  refine ⟨by decide, ?_, ?_, ?_⟩
  · unfold deployHandler
    simp only [hq, hp, if_neg hs, if_neg hst]
    split <;> rfl
  · unfold deployHandler
    simp only [hq, hp, if_neg hs, if_neg hst]
    split <;> simp [httpError, httpOK]
  · unfold hashHandler
    simp only [hq, hp, if_neg hs, he]
    rfl

/-! ## Client -/

/-- C10 (fixed order with fatal halting). In every run the calls form an initial
part of the fixed order, with or without the upload of the descriptor; a call
that fails is the last one unless it is `getRemoteHash`, and a run whose last
call failed ends in `log.Fatal`; `triggerDeploy` is called only after
`parseDeployYAML`, `dockerBuild`, `dockerSave`, `uploadImage` and `fileHash`
have succeeded and the descriptor was either uploaded with success or not
uploaded at all, the local and the remote digest being equal. -/
theorem fixed_order_fatal_halting (lib : Lib) (io : ClientIO) (args : List String) (srv : Store) :
    ((∃ rest, (main lib io args srv).calls.map Prod.fst ++ rest = fullOrder) ∨
      (∃ rest, (main lib io args srv).calls.map Prod.fst ++ rest = skipOrder)) ∧
    HaltsAtFailure (main lib io args srv).calls ∧
    (∀ st, (main lib io args srv).calls.getLast? = some (st, false) →
      ∃ msg, (main lib io args srv).exit = .fatal msg) ∧
    (∀ b, (Step.triggerDeploy, b) ∈ (main lib io args srv).calls →
      (Step.parseDeployYAML, true) ∈ (main lib io args srv).calls ∧
      (Step.dockerBuild, true) ∈ (main lib io args srv).calls ∧
      (Step.dockerSave, true) ∈ (main lib io args srv).calls ∧
      (Step.uploadImage, true) ∈ (main lib io args srv).calls ∧
      (Step.fileHash, true) ∈ (main lib io args srv).calls ∧
      ((Step.uploadDeployFile, true) ∈ (main lib io args srv).calls ∨
        ((∀ b2, (Step.uploadDeployFile, b2) ∉ (main lib io args srv).calls) ∧
          (fileHash lib io (args.getD 2 "")).1
            = (getRemoteHash lib io (args.getD 3 "")
                (uploadImage lib io io.savedTar (args.getD 3 "") srv).2).1))) := by
  unfold main
  repeat' split
  all_goals simp_all [savedCalls, fullOrder, skipOrder, HaltsAtFailure]

theorem hextable_getD_mem : ∀ n < 16, hextable.getD n '0' ∈ hextable := by
  decide

theorem hexChars_length (b : Bytes) : (hexChars b).length = 2 * b.length := by
  induction b with
  | nil => rfl
  | cons v rest ih => simp only [hexChars, List.length_cons, ih]; omega

theorem hexChars_mem (b : Bytes) : ∀ c ∈ hexChars b, c ∈ hextable := by
  induction b with
  | nil => simp [hexChars]
  | cons v rest ih =>
    intro c hc
    simp only [hexChars, List.mem_cons] at hc
    rcases hc with h | h | h
    · rw [h]; exact hextable_getD_mem _ (Nat.mod_lt _ (by decide))
    · rw [h]; exact hextable_getD_mem _ (Nat.mod_lt _ (by decide))
    · exact ih c h

/-- A failed `getRemoteHash` returns the empty string. -/
theorem getRemoteHash_failed (lib : Lib) (io : ClientIO) (service : String) (srv : Store)
    (rh : String) (err : Option String) (srv2 : Store)
    (h : getRemoteHash lib io service srv = (rh, err, srv2)) (he : err ≠ none) : rh = "" := by
  unfold getRemoteHash at h
  split at h
  · simp only [Prod.mk.injEq] at h
    exact h.1.symm
  · simp only at h
    split at h
    · simp only [Prod.mk.injEq] at h
      exact h.1.symm
    · simp only [Prod.mk.injEq] at h
      exact absurd h.2.1.symm he

/-- A successful `fileHash` returns the hexadecimal digest of the file. -/
theorem fileHash_ok (lib : Lib) (io : ClientIO) (path : String) (l : String)
    (h : fileHash lib io path = (l, none)) :
    ∃ data, io.files path = some data ∧ l = EncodeToString (lib.sha256 data) := by
  unfold fileHash at h
  split at h
  · simp at h
  · rename_i data hd
    split at h
    · simp at h
    · simp only [Prod.mk.injEq, and_true] at h
      exact ⟨data, hd, h.symm⟩

/-- C5 (unknown remote digest means upload). With a SHA-256 digest of 32 bytes,
every string that `fileHash` returns with success has exactly 64 characters,
all of them lowercase hexadecimal digits, so it differs from the empty string
that stands for a failed `getRemoteHash`; and a run in which `fileHash`
succeeded and `getRemoteHash` failed goes on to call `uploadDeployFile`. -/
theorem unknown_remote_digest_means_upload (lib : Lib)
    (hsha : ∀ d, (lib.sha256 d).length = 32) :
    (∀ (io : ClientIO) (path l : String), fileHash lib io path = (l, none) →
      l.length = 64 ∧ (∀ c ∈ l.data, c ∈ hextable) ∧ l ≠ "") ∧
    (∀ (io : ClientIO) (args : List String) (srv : Store),
      (Step.fileHash, true) ∈ (main lib io args srv).calls →
      (Step.getRemoteHash, false) ∈ (main lib io args srv).calls →
      ∃ b, (Step.uploadDeployFile, b) ∈ (main lib io args srv).calls) := by
  have hlen : ∀ (io : ClientIO) (path l : String), fileHash lib io path = (l, none) →
      l.length = 64 ∧ (∀ c ∈ l.data, c ∈ hextable) ∧ l ≠ "" := by
    intro io path l h
    obtain ⟨data, _, rfl⟩ := fileHash_ok lib io path l h
    have h64 : (EncodeToString (lib.sha256 data)).length = 64 := by
      show (hexChars (lib.sha256 data)).length = 64
      rw [hexChars_length, hsha]
    refine ⟨h64, hexChars_mem _, ?_⟩
    intro h0
    rw [h0] at h64
    exact absurd h64 (by decide)
  refine ⟨hlen, ?_⟩
  intro io args srv
  have key : ∀ (path service l rh : String) (err : Option String) (s1 s2 : Store),
      fileHash lib io path = (l, none) → getRemoteHash lib io service s1 = (rh, err, s2) →
      l = rh → err = none := by
    intro path service l rh err s1 s2 h1 h2 h3
    by_contra he
    have := getRemoteHash_failed lib io service s1 rh err s2 h2 he
    exact (hlen io path l h1).2.2 (h3.trans this)
  unfold main
  repeat' split
  all_goals first
    | (simp_all [savedCalls]; done)
    | (have hk := key _ _ _ _ _ _ _ (by assumption) (by assumption) (not_not.1 (by assumption))
       simp_all [savedCalls])

/-! ### What a successful run leaves on the server -/

theorem uploadImage_ok (lib : Lib) (io : ClientIO) (content : Bytes) (service : String)
    (srv srv1 : Store) (h : uploadImage lib io content service srv = (none, srv1)) :
    srv1 = srv ∧ queryGet (lib.query service) "service" ≠ "" := by
  unfold uploadImage at h
  split at h
  · simp at h
  · split at h
    · simp at h
    · simp only at h
      split at h
      · simp at h
      · rename_i h200
        simp only [Prod.mk.injEq, true_and] at h
        refine ⟨by rw [← h, imageHandler_store], ?_⟩
        intro hs
        apply h200
        simp [imageHandler, hs, httpError]

theorem getRemoteHash_store (lib : Lib) (io : ClientIO) (service : String) (srv : Store) :
    (getRemoteHash lib io service srv).2.2 = srv := by
  unfold getRemoteHash
  split
  · rfl
  · simp only
    split <;> exact hashHandler_store _ _ _ _

theorem triggerDeploy_store (lib : Lib) (io : ClientIO) (service : String) (srv : Store) :
    (triggerDeploy lib io service srv).2 = srv := by
  unfold triggerDeploy
  split
  · rfl
  · simp only
    split <;> exact deployHandler_store _ _ _

/-- Without a stored descriptor, `getRemoteHash` returns the empty string. -/
theorem getRemoteHash_absent (lib : Lib) (io : ClientIO) (service : String) (srv : Store)
    (h : srv (storePath (queryGet (lib.query service) "service")) = none) :
    (getRemoteHash lib io service srv).1 = "" := by
  unfold getRemoteHash
  split
  · rfl
  · simp only
    split
    · rfl
    · rename_i h200
      exfalso
      apply h200
      unfold hashHandler
      simp only
      split
      · simp [httpError]
      · have ho : ∃ e, openPath (io.server .hash) srv
            (Join ["deployments", queryGet (lib.query service) "service", "deploy.yml"])
            = .error e := by
          unfold openPath
          split
          · exact ⟨_, rfl⟩
          · rw [show Join ["deployments", queryGet (lib.query service) "service", "deploy.yml"]
              = storePath (queryGet (lib.query service) "service") from rfl, h]
            exact ⟨_, rfl⟩
        obtain ⟨e, he⟩ := ho
        simp [he, httpError]

theorem uploadDeployFile_ok (lib : Lib) (io : ClientIO) (path service : String)
    (srv srv1 : Store) (D : Bytes) (hD : io.files path = some D)
    (h : uploadDeployFile lib io path service srv = (none, srv1)) :
    srv1 = srv.write (storePath (queryGet (lib.query service) "service")) D := by
  unfold uploadDeployFile at h
  simp only [hD] at h
  split at h
  · simp at h
  · split at h
    · simp at h
    · rename_i h200
      simp only [Prod.mk.injEq, true_and] at h
      rw [← h]
      exact (deployFileHandler_ok _ _ _ D (by simp [formWith]) (not_not.1 h200)).2

/-- What a run that ended without a fatal error, started on a server without a
descriptor for the service, has established. -/
theorem main_done_store (lib : Lib) (io : ClientIO) (a0 file service : String)
    (rest : List String) (srv : Store) (D : Bytes) (R : Run)
    (hD : io.files file = some D)
    (hnone : srv (storePath (queryGet (lib.query service) "service")) = none)
    (hR : main lib io (a0 :: "-f" :: file :: service :: rest) srv = R)
    (hdone : R.exit = .done) :
    (∃ img, parseDeployYAML lib io file = .ok img) ∧
    queryGet (lib.query service) "service" ≠ "" ∧
    (R.store (storePath (queryGet (lib.query service) "service")) = some D ∨
      (R.store (storePath (queryGet (lib.query service) "service")) = none ∧
        EncodeToString (lib.sha256 D) = "")) := by
  unfold main at hR
  simp only [ne_eq, not_true_eq_false, if_false] at hR
  split at hR
  · subst hR; simp at hdone
  rename_i img hparse
  split at hR
  · subst hR; simp at hdone
  split at hR
  · subst hR; simp at hdone
  split at hR
  · subst hR; simp at hdone
  split at hR
  · subst hR; simp at hdone
  rename_i srv1 himg
  obtain ⟨rfl, hsv⟩ := uploadImage_ok _ _ _ _ _ _ himg
  split at hR
  · subst hR; simp at hdone
  rename_i l hfh
  obtain ⟨data, hdata, hl⟩ := fileHash_ok _ _ _ _ hfh
  rw [hD] at hdata
  cases hdata
  have hrh := getRemoteHash_absent lib io service srv1 hnone
  refine ⟨⟨img, hparse⟩, hsv, ?_⟩
  simp only [getRemoteHash_store] at hR
  split at hR
  · split at hR
    · subst hR; simp at hdone
    · rename_i srv3 hup
      have h3 := uploadDeployFile_ok _ _ _ _ _ _ D hD hup
      split at hR
      · subst hR; simp at hdone
      · rename_i srv4 htd
        have h4 : srv4 = srv3 := by
          have := triggerDeploy_store lib io service srv3
          rw [htd] at this
          exact this
        subst hR
        left
        simp [h4, h3, Store.write]
  · rename_i heq
    split at hR
    · subst hR; simp at hdone
    · rename_i srv4 htd
      have h4 : srv4 = srv1 := by
        have := triggerDeploy_store lib io service srv1
        rw [htd] at this
        exact this
      subst hR
      right
      refine ⟨by simp [h4, hnone], ?_⟩
      rw [← hl, not_not.1 heq, hrh]

/-! ### A run on which every call succeeds -/

theorem parseDeployYAML_again (lib : Lib) (io1 io2 : ClientIO) (file img : String) (D : Bytes)
    (hD1 : io1.files file = some D) (hD2 : io2.files file = some D)
    (h : parseDeployYAML lib io1 file = .ok img) :
    ∃ img2, parseDeployYAML lib io2 file = .ok img2 := by
  unfold parseDeployYAML at h ⊢
  simp only [hD1] at h
  simp only [hD2]
  cases hy : lib.yaml D with
  | error e => simp [hy] at h
  | ok services =>
    simp only [hy] at h ⊢
    have hpos : 0 < services.length := by
      cases services with
      | nil => simp at h
      | cons x xs => simp
    have hlt : io2.rangePick % services.length < services.length := Nat.mod_lt _ hpos
    rw [List.get?_eq_get hlt]
    exact ⟨_, rfl⟩

theorem uploadImage_succeeds (lib : Lib) (io : ClientIO) (content : Bytes) (service : String)
    (srv : Store) (hall : AllSucceed io)
    (hsv : queryGet (lib.query service) "service" ≠ "") :
    uploadImage lib io content service srv = (none, srv) := by
  obtain ⟨_, _, hopen, _, hsend, hsrv⟩ := hall
  obtain ⟨_, _, hcopy, _, _, _, ⟨tmp, htmp⟩, hexec⟩ := hsrv .image
  unfold uploadImage
  simp [hopen, hsend, imageHandler, hsv, formWith, htmp, hcopy, hexec, httpOK]

theorem fileHash_succeeds (lib : Lib) (io : ClientIO) (file : String) (D : Bytes)
    (hall : AllSucceed io) (hD : io.files file = some D) :
    fileHash lib io file = (EncodeToString (lib.sha256 D), none) := by
  obtain ⟨_, _, _, hread, _, _⟩ := hall
  simp [fileHash, hD, hread]

theorem getRemoteHash_succeeds (lib : Lib) (io : ClientIO) (service : String) (srv : Store)
    (D : Bytes) (hall : AllSucceed io)
    (hsv : queryGet (lib.query service) "service" ≠ "")
    (hfs : srv (storePath (queryGet (lib.query service) "service")) = some D) :
    (getRemoteHash lib io service srv).1 = EncodeToString (lib.sha256 D) := by
  obtain ⟨_, _, _, _, hsend, hsrv⟩ := hall
  obtain ⟨_, _, _, hopen, hread, _, _, _⟩ := hsrv .hash
  have h := (hashHandler_of_stored lib (io.server .hash) srv ⟨lib.query service, noForm⟩ D
    hsv hfs).2 hopen hread
  unfold getRemoteHash
  simp [hsend, h]

/-- C1 (idempotent skip). A first run, against a server without a descriptor for
the service, ends without a fatal error; a second run with the same
descriptor, on the state of the server that the first run left and with every
command, file operation and transport succeeding, makes the calls of the
fixed order up to `getRemoteHash` and then `triggerDeploy`: the image is
uploaded with success, `uploadDeployFile` is not called, `triggerDeploy` is
called. -/
theorem idempotent_skip (lib : Lib) (io1 io2 : ClientIO) (a0 file service : String)
    (rest : List String) (srv : Store) (D : Bytes)
    (hD1 : io1.files file = some D) (hD2 : io2.files file = some D)
    (hnone : srv (storePath (queryGet (lib.query service) "service")) = none)
    (hrun1 : (main lib io1 (a0 :: "-f" :: file :: service :: rest) srv).exit = .done)
    (hall : AllSucceed io2) :
    ∃ g t, (main lib io2 (a0 :: "-f" :: file :: service :: rest)
        (main lib io1 (a0 :: "-f" :: file :: service :: rest) srv).store).calls
      = savedCalls ++ [(.uploadImage, true), (.fileHash, true), (.getRemoteHash, g),
          (.triggerDeploy, t)] := by
  obtain ⟨⟨img, hparse⟩, hsv, hstore⟩ :=
    main_done_store lib io1 a0 file service rest srv D _ hD1 hnone rfl hrun1
  obtain ⟨img2, hparse2⟩ := parseDeployYAML_again lib io1 io2 file img D hD1 hD2 hparse
  generalize (main lib io1 (a0 :: "-f" :: file :: service :: rest) srv).store = srv1 at hstore ⊢
  have himg := fun content => uploadImage_succeeds lib io2 content service srv1 hall hsv
  have hfh := fileHash_succeeds lib io2 file D hall hD2
  have hrun := hall.1
  obtain ⟨tmp, htmp⟩ := hall.2.1
  have heq : EncodeToString (lib.sha256 D) = (getRemoteHash lib io2 service srv1).1 := by
    rcases hstore with h | ⟨h, h0⟩
    · exact (getRemoteHash_succeeds lib io2 service srv1 D hall hsv h).symm
    · rw [h0, getRemoteHash_absent lib io2 service srv1 h]
  unfold main
  simp only [ne_eq, not_true_eq_false, if_false, hparse2, dockerBuild, dockerSave, hrun, htmp,
    himg, hfh, heq, getRemoteHash_store]
  split
  · exact ⟨_, false, rfl⟩
  · exact ⟨_, true, rfl⟩

theorem okServer_succeeds : ServerSucceeds okServer :=
  ⟨rfl, rfl, rfl, rfl, rfl, rfl, ⟨_, rfl⟩, fun _ => rfl⟩

theorem okClient_succeeds (path : String) (data : Bytes) : AllSucceed (okClient path data) :=
  ⟨fun _ => rfl, ⟨_, rfl⟩, rfl, rfl, fun _ => rfl, fun _ => okServer_succeeds⟩

/-- C1, at the descriptor `[1, 2, 3]` for the service `web` on an empty server. -/
theorem idempotent_skip_witness :
    (main demoLib (okClient "deploy.yml" [1, 2, 3]) webArgs emptyStore).exit = .done ∧
    ∃ g t, (main demoLib (okClient "deploy.yml" [1, 2, 3]) webArgs
        (main demoLib (okClient "deploy.yml" [1, 2, 3]) webArgs emptyStore).store).calls
      = savedCalls ++ [(.uploadImage, true), (.fileHash, true), (.getRemoteHash, g),
          (.triggerDeploy, t)] :=
  ⟨by decide,
   idempotent_skip demoLib (okClient "deploy.yml" [1, 2, 3]) (okClient "deploy.yml" [1, 2, 3])
     "dd" "deploy.yml" "web" [] emptyStore [1, 2, 3] (by decide) (by decide) (by decide)
     (by decide) (okClient_succeeds _ _)⟩

/-- C5, at a digest of 32 bytes and a first run on an empty server. -/
theorem unknown_remote_digest_means_upload_witness :
    (∀ d, (demoLib.sha256 d).length = 32) ∧
    ∃ b, (Step.uploadDeployFile, b)
      ∈ (main demoLib (okClient "deploy.yml" [1, 2, 3]) webArgs emptyStore).calls :=
  ⟨fun d => by simp [demoLib],
   (unknown_remote_digest_means_upload demoLib (fun d => by simp [demoLib])).2
     (okClient "deploy.yml" [1, 2, 3]) webArgs emptyStore (by decide) (by decide)⟩

/-- C6 (manifest reader, not found), at the failing input. When the `services`
mapping has at least one entry and every entry has an empty `image` field,
`parseDeployYAML` returns the empty string with success: the loop returns the
field of the first entry without looking at it, and the error "no image found
in deploy.yml" is reached for an empty mapping only. -/
theorem parse_returns_empty_image (lib : Lib) (io : ClientIO) (path : String) (data : Bytes)
    (services : List (String × String))
    (hfile : io.files path = some data) (hyaml : lib.yaml data = .ok services)
    (hne : services ≠ []) (hall : ∀ s ∈ services, s.2 = "") :
    parseDeployYAML lib io path = .ok "" := by
  unfold parseDeployYAML
  simp only [hfile, hyaml]
  have hpos : 0 < services.length := List.length_pos.2 hne
  have hlt : io.rangePick % services.length < services.length := Nat.mod_lt _ hpos
  rw [List.get?_eq_get hlt]
  simp only
  rw [hall _ (List.get_mem _ _ _)]

/-- C6, at the descriptor with the single service `web` without an image. -/
theorem parse_returns_empty_image_witness :
    ((okClient "deploy.yml" [1, 2, 3]).files "deploy.yml" = some [1, 2, 3] ∧
      noImageLib.yaml [1, 2, 3] = .ok [("web", "")]) ∧
    parseDeployYAML noImageLib (okClient "deploy.yml" [1, 2, 3]) "deploy.yml" = .ok "" :=
  ⟨⟨by decide, rfl⟩,
   parse_returns_empty_image noImageLib (okClient "deploy.yml" [1, 2, 3]) "deploy.yml" [1, 2, 3]
     [("web", "")] (by decide) rfl (by decide) (by decide)⟩

/-- C4 (client cleanup), at the failing input. A run in which `docker save`
fails ends in `log.Fatal` right after the transient file was created, and the
file is still there: the deferred `os.Remove` does not run on `os.Exit`. A run
that succeeds leaves no transient file. -/
theorem transient_file_left_on_fatal :
    (main demoLib (saveFailsClient "deploy.yml" [1, 2, 3]) webArgs emptyStore).exit
      = .fatal "exit status 1" ∧
    (main demoLib (saveFailsClient "deploy.yml" [1, 2, 3]) webArgs emptyStore).calls
      = [(.parseDeployYAML, true), (.dockerBuild, true), (.createTemp, true),
          (.dockerSave, false)] ∧
    (main demoLib (saveFailsClient "deploy.yml" [1, 2, 3]) webArgs emptyStore).leftover
      = ["/tmp/dd-image-1.tar"] ∧
    (main demoLib (okClient "deploy.yml" [1, 2, 3]) webArgs emptyStore).leftover = [] := by
  decide

end DD
